import Mathlib

/-!
Verification development for the node-shellies-ng client library.

The definitions below are a shallow embedding of the repository's core:
the authenticated JSON-RPC client (src/rpc/auth.ts), the WebSocket RPC
handler's reconnect logic (src/rpc/websocket.ts), the component
characteristic-update model (src/components/base.ts), and the device
status-notification routing (src/devices/base.ts).

External collaborators (the node crypto SHA-256 digest, JSON.parse, the
Math.random client nonce, timers and sockets) are modeled as parameters or
explicit state; everything else is translated from the source.
-/

set_option linter.unusedVariables false

/-! ## Authenticated RPC client (src/rpc/auth.ts) -/

/-- Authentication challenge parameters sent by the server (interface
RpcAuthChallenge in src/rpc/auth.ts). An absent nc field is modeled as
none. -/
structure RpcAuthChallenge where
  auth_type : String
  nonce : Int
  nc : Option Int
  realm : String
  algorithm : String
deriving DecidableEq

/-- Authentication response parameters supplied with each authenticated
request (interface RpcAuthResponse in src/rpc/auth.ts). The algorithm field
of the source is the literal type SHA-256; it is a plain string here. -/
structure RpcAuthResponse where
  realm : String
  username : String
  nonce : Int
  cnonce : Int
  response : String
  algorithm : String
deriving DecidableEq

/-- Model of the string payload of an RPC error. The raw field is the string
itself, used verbatim when the error is surfaced; the parsed field models the
outcome of the external JSON.parse on that string: some c when it parses to
an authentication challenge object, none when parsing throws. -/
structure WireErrorMessage where
  raw : String
  parsed : Option RpcAuthChallenge
deriving DecidableEq

/-- An RPC error object with a numeric code and a message payload. -/
structure RpcError where
  code : Int
  message : WireErrorMessage
deriving DecidableEq

/-- A JSON-RPC response: either an error or a result (the result payload is
opaque to the authentication layer and modeled as a string). -/
structure RpcResponse where
  error : Option RpcError := none
  result : Option String := none
deriving DecidableEq

/-- A JSON-RPC request as handed to requestAdvanced: the method and params
are opaque to the authentication logic. -/
structure JSONRPCRequest where
  method : String
  params : String
deriving DecidableEq

/-- A request together with the optional authentication response attached to
it (interface JSONRPCRequestWithAuth): the source builds it as
a spread of the request over an auth field holding the client's current
authentication state. -/
structure JSONRPCRequestWithAuth where
  request : JSONRPCRequest
  auth : Option RpcAuthResponse
deriving DecidableEq

/-- Embedding of the JavaScript truthiness test on the optional password
configuration: an absent password and the empty string are both falsy. -/
def passwordFalsy : Option String → Bool
  | none => true
  | some s => s.isEmpty

/-- Embedding of the local hash helper in createAuthResponse: the SHA-256
hex digest of the parts joined by a colon. The external crypto digest is
the parameter hashHex. -/
def shaHash (hashHex : String → String) (parts : List String) : String :=
  hashHex (String.intercalate ":" parts)

/-- Embedding of the JavaScript expression params.nc OR 1: an absent nc and
a zero nc (zero is falsy) both fall back to 1. -/
def ncOrOne : Option Int → Int
  | none => 1
  | some n => if n = 0 then 1 else n

/-- Embedding of JSONRPCClientWithAuthentication.createAuthResponse. The
cnonce (Math.round of Math.random times one million in the source) and the
SHA-256 digest are parameters. Returns the thrown error message on the
unsupported-type, unsupported-algorithm and missing-password paths. -/
def createAuthResponse (hashHex : String → String) (cnonce : Int)
    (password : Option String) (params : RpcAuthChallenge) :
    Except String RpcAuthResponse :=
  if params.auth_type ≠ "digest" then
    .error ("Unsupported authentication type " ++ params.auth_type)
  else if params.algorithm ≠ "SHA-256" then
    .error ("Unsupported hash algorithm " ++ params.algorithm)
  else if passwordFalsy password then
    .error "No password specified"
  else
    let pw := password.getD ""
    let parts := [shaHash hashHex ["admin", params.realm, pw],
      toString params.nonce, toString (ncOrOne params.nc), toString cnonce,
      "auth", shaHash hashHex ["dummy_method", "dummy_uri"]]
    .ok { realm := params.realm, username := "admin", nonce := params.nonce,
          cnonce := cnonce, response := shaHash hashHex parts,
          algorithm := "SHA-256" }

/-- Outcome of one logical request() call: the promise resolves with a
response, rejects with an error message, or (with bounded fuel standing in
for unbounded recursion) runs out of fuel, which models divergence. -/
inductive RpcOutcome where
  | resolved (resp : RpcResponse)
  | rejected (msg : String)
  | outOfFuel
deriving DecidableEq

/-- Embedding of
JSONRPCClientWithAuthentication.requestWithAuthentication. The underlying
transport (super.requestAdvanced) is the parameter send; the client state
this.auth is threaded explicitly; fuel bounds the recursion depth, as the
source recursion is unbounded. Returns the outcome, the final auth state
and the trace of requests handed to the transport, in order.

Faithful details: the auth parameters are attached from the current state
before sending; on a 401 the password falsiness check precedes the
already-authenticated check; the challenge parse and createAuthResponse run
inside a try whose catch constructs an error object but neither throws nor
returns it, so a parse or setup failure leaves the auth state unchanged
and falls through to the retry. -/
def requestWithAuthentication (hashHex : String → String) (cnonce : Int)
    (send : JSONRPCRequestWithAuth → RpcResponse) (password : Option String) :
    Nat → Option RpcAuthResponse → JSONRPCRequest →
    RpcOutcome × Option RpcAuthResponse × List JSONRPCRequestWithAuth
  | 0, auth, _ => (.outOfFuel, auth, [])
  | fuel + 1, auth, request =>
    let req : JSONRPCRequestWithAuth := { request := request, auth := auth }
    let response := send req
    match response.error with
    | none => (.resolved response, auth, [req])
    | some err =>
      if err.code = 401 then
        if passwordFalsy password then
          (.rejected "Unauthorized", auth, [req])
        else if req.auth.isSome then
          (.rejected "Invalid password", auth, [req])
        else
          let newAuth :=
            match err.message.parsed with
            | none => auth
            | some challenge =>
              match createAuthResponse hashHex cnonce password challenge with
              | .ok a => some a
              | .error _ => auth
          let next := requestWithAuthentication hashHex cnonce send password
            fuel newAuth request
          (next.1, next.2.1, req :: next.2.2)
      else
        (.rejected err.message.raw, auth, [req])

/-- C7: for every digest challenge with algorithm SHA-256 and a configured
(non-empty) password, the computed auth response token is
hash(hash(admin, realm, password), nonce, nc-or-1, cnonce, auth,
hash(dummy_method, dummy_uri)) where hash is the digest of the arguments
joined by colons, the username is the fixed literal admin, and a missing nc
defaults to 1. -/
theorem c7_auth_response_token (hashHex : String → String) (cnonce : Int)
    (pw realm : String) (nonce : Int) (nc : Option Int)
    (hpw : pw.isEmpty = false) :
    createAuthResponse hashHex cnonce (some pw)
      { auth_type := "digest", nonce := nonce, nc := nc, realm := realm,
        algorithm := "SHA-256" }
      = .ok { realm := realm, username := "admin", nonce := nonce,
              cnonce := cnonce,
              response := shaHash hashHex
                [shaHash hashHex ["admin", realm, pw], toString nonce,
                 toString (ncOrOne nc), toString cnonce, "auth",
                 shaHash hashHex ["dummy_method", "dummy_uri"]],
              algorithm := "SHA-256" }
      ∧ ncOrOne none = 1 := by
  refine ⟨?_, rfl⟩
  simp [createAuthResponse, passwordFalsy, hpw]

/-- Witness for c7_auth_response_token at a concrete challenge and password. -/
theorem c7_auth_response_token_witness :
    createAuthResponse (fun s => "sha256[" ++ s ++ "]") 42 (some "qwerty")
      { auth_type := "digest", nonce := 1630243628, nc := none,
        realm := "shellypro4pm-abc123", algorithm := "SHA-256" }
      = .ok { realm := "shellypro4pm-abc123", username := "admin",
              nonce := 1630243628, cnonce := 42,
              response := shaHash (fun s => "sha256[" ++ s ++ "]")
                [shaHash (fun s => "sha256[" ++ s ++ "]")
                   ["admin", "shellypro4pm-abc123", "qwerty"],
                 toString (1630243628 : Int), toString (ncOrOne none),
                 toString (42 : Int), "auth",
                 shaHash (fun s => "sha256[" ++ s ++ "]")
                   ["dummy_method", "dummy_uri"]],
              algorithm := "SHA-256" }
      ∧ ncOrOne none = 1 :=
  c7_auth_response_token (fun s => "sha256[" ++ s ++ "]") 42 "qwerty"
    "shellypro4pm-abc123" 1630243628 none (by decide)

/-- C1: given a configured password, a first attempt without auth parameters
that receives a 401 carrying a well-formed digest challenge, and a second
401 on the authenticated re-attempt, the client sends exactly two requests:
the original one and one re-issue of the same logical request carrying the
computed auth response; the call rejects with the message Invalid password
and no third attempt is made (the result is independent of remaining fuel). -/
theorem c1_single_auth_retry_then_invalid_password
    (hashHex : String → String) (cnonce : Int)
    (send : JSONRPCRequestWithAuth → RpcResponse) (p : String)
    (request : JSONRPCRequest) (msg1 msg2 : WireErrorMessage)
    (ch : RpcAuthChallenge) (a : RpcAuthResponse) (fuel : Nat)
    (hp : p.isEmpty = false)
    (h1 : send { request := request, auth := none }
      = { error := some { code := 401, message := msg1 } })
    (hparse : msg1.parsed = some ch)
    (hcreate : createAuthResponse hashHex cnonce (some p) ch = .ok a)
    (h2 : send { request := request, auth := some a }
      = { error := some { code := 401, message := msg2 } }) :
    requestWithAuthentication hashHex cnonce send (some p) (fuel + 2) none request
      = (.rejected "Invalid password", some a,
         [{ request := request, auth := none },
          { request := request, auth := some a }]) := by
  show requestWithAuthentication hashHex cnonce send (some p)
    ((fuel + 1) + 1) none request = _
  rw [requestWithAuthentication]
  simp only [h1, passwordFalsy, hp, hparse, hcreate]
  rw [requestWithAuthentication]
  simp [h2, passwordFalsy, hp]

/-- Concrete hash function used by the authentication witnesses. -/
def demoHash : String → String := fun s => "h(" ++ s ++ ")"

/-- Concrete digest challenge used by the authentication witnesses. -/
def demoChallenge : RpcAuthChallenge :=
  ⟨"digest", 99, some 2, "shelly1", "SHA-256"⟩

/-- Concrete request used by the authentication witnesses. -/
def demoRequest : JSONRPCRequest := ⟨"Shelly.GetStatus", ""⟩

/-- The auth response the modeled client computes for demoChallenge with
password pw and client nonce 7 under demoHash. -/
def demoAuthResponse : RpcAuthResponse :=
  ⟨"shelly1", "admin", 99, 7,
   shaHash demoHash
     [shaHash demoHash ["admin", "shelly1", "pw"], toString (99 : Int),
      toString (ncOrOne (some 2)), toString (7 : Int), "auth",
      shaHash demoHash ["dummy_method", "dummy_uri"]],
   "SHA-256"⟩

/-- Concrete transport for the C1 witness: 401 with the challenge for an
unauthenticated request, 401 with a plain message for an authenticated one. -/
def demoSend : JSONRPCRequestWithAuth → RpcResponse := fun r =>
  match r.auth with
  | none => ⟨some ⟨401, ⟨"challenge-json", some demoChallenge⟩⟩, none⟩
  | some _ => ⟨some ⟨401, ⟨"denied", none⟩⟩, none⟩

/-- Witness for c1_single_auth_retry_then_invalid_password at the concrete
transport demoSend. -/
theorem c1_single_auth_retry_witness :
    requestWithAuthentication demoHash 7 demoSend (some "pw") 5 none demoRequest
      = (.rejected "Invalid password", some demoAuthResponse,
         [⟨demoRequest, none⟩, ⟨demoRequest, some demoAuthResponse⟩]) :=
  c1_single_auth_retry_then_invalid_password demoHash 7 demoSend "pw"
    demoRequest ⟨"challenge-json", some demoChallenge⟩ ⟨"denied", none⟩
    demoChallenge demoAuthResponse 3 (by decide) rfl rfl rfl rfl

/-- C2 (code bug): when the 401 challenge payload is malformed JSON, or its
auth_type is not digest, or its algorithm is not SHA-256, the catch block in
requestWithAuthentication constructs the setup-failure error but never
throws or returns it, so instead of the promised rejection the client
re-issues the unauthenticated request forever: for every fuel bound the
call neither resolves nor rejects, the auth state stays empty, and one
identical unauthenticated request is sent per unit of fuel. -/
theorem c2_challenge_failure_loops_instead_of_rejecting
    (hashHex : String → String) (cnonce : Int) (p : String)
    (request : JSONRPCRequest) (msg : WireErrorMessage)
    (hp : p.isEmpty = false)
    (hfail : msg.parsed = none ∨ ∃ ch, msg.parsed = some ch ∧
      (ch.auth_type ≠ "digest" ∨ ch.algorithm ≠ "SHA-256")) :
    ∀ fuel, requestWithAuthentication hashHex cnonce
        (fun _ => { error := some { code := 401, message := msg } })
        (some p) fuel none request
      = (.outOfFuel, none,
         List.replicate fuel { request := request, auth := none }) := by
  have hnew : (match msg.parsed with
      | none => (none : Option RpcAuthResponse)
      | some challenge =>
        match createAuthResponse hashHex cnonce (some p) challenge with
        | .ok a => some a
        | .error _ => none) = none := by
    rcases hfail with h | ⟨ch, hch, hbad⟩
    · rw [h]
    · rw [hch]
      rcases hbad with hb | hb
      · simp [createAuthResponse, hb]
      · rcases eq_or_ne ch.auth_type "digest" with hd | hd
        · simp [createAuthResponse, hd, hb]
        · simp [createAuthResponse, hd]
  intro fuel
  induction fuel with
  | zero => rfl
  | succ n ih =>
    rw [requestWithAuthentication]
    simp only [passwordFalsy, hp, hnew, ih]
    simp [List.replicate_succ]

/-- Witness for c2_challenge_failure_loops_instead_of_rejecting: a server
whose 401 error message is not valid JSON; with three units of fuel the
client sends three identical unauthenticated requests and settles nothing. -/
theorem c2_challenge_failure_loops_witness :
    requestWithAuthentication (fun s => s) 0
      (fun _ => ⟨some ⟨401, ⟨"not json", none⟩⟩, none⟩)
      (some "pw") 3 none demoRequest
      = (.outOfFuel, none, List.replicate 3 ⟨demoRequest, none⟩) :=
  c2_challenge_failure_loops_instead_of_rejecting (fun s => s) 0 "pw"
    demoRequest ⟨"not json", none⟩ (by decide) (Or.inl rfl) 3

/-! ## Component state model (src/components/base.ts, ComponentBase.update)

Characteristic values follow the declared CharacteristicValue type:
a primitive, an array of primitives, null, or a flat object whose fields
are primitives, arrays of primitives or null. The absent-property value
undefined is included so that uninitialized characteristics and missing
data keys evaluate as in JavaScript. -/

/-- JavaScript primitive values appearing in characteristics. -/
inductive Prim where
  | b (v : Bool)
  | n (v : Int)
  | s (v : String)
deriving DecidableEq

/-- Field values inside a compound (object) characteristic, per the
CharacteristicValue type: primitive, array of primitives, or null. -/
inductive FVal where
  | prim (p : Prim)
  | arr (xs : List Prim)
  | null
deriving DecidableEq

/-- A characteristic value: primitive, array, null, undefined, or a flat
object represented as an association list in property-insertion order. -/
inductive CVal where
  | prim (p : Prim)
  | arr (xs : List Prim)
  | null
  | undef
  | obj (fields : List (String × FVal))
deriving DecidableEq

/-- View of a compound field value as a characteristic value. -/
def FVal.toCVal : FVal → CVal
  | .prim p => .prim p
  | .arr xs => .arr xs
  | .null => .null

/-- Embedding of the JavaScript test typeof x === object: true for objects,
arrays and null, false for primitives and undefined. -/
def jsTypeofObject : CVal → Bool
  | .obj _ => true
  | .arr _ => true
  | .null => true
  | _ => false

/-- JavaScript truthiness of a characteristic value: false, 0, the empty
string, null and undefined are falsy; every object and array is truthy. -/
def jsTruthy : CVal → Bool
  | .prim (.b v) => v
  | .prim (.n v) => decide (v ≠ 0)
  | .prim (.s v) => !v.isEmpty
  | .arr _ => true
  | .obj _ => true
  | .null => false
  | .undef => false

/-- JavaScript strict equality on characteristic values as used by
ComponentBase.update. Primitives compare by value; objects and arrays
compare by reference, and since the compared operands there come from the
incoming payload and the stored state respectively (distinct objects), the
object and array cases are false. -/
def jsStrictEq : CVal → CVal → Bool
  | .prim a, .prim b => decide (a = b)
  | .null, .null => true
  | .undef, .undef => true
  | _, _ => false

/-- Property lookup in an association-list object (first occurrence). -/
def lookupField : List (String × FVal) → String → Option FVal
  | [], _ => none
  | kv :: rest, k => if kv.1 = k then some kv.2 else lookupField rest k

/-- Embedding of fast-deep-equal on flat field values: for primitives,
primitive arrays and null, deep equality coincides with structural
equality. -/
def fvalDeepEqual (a b : FVal) : Bool := decide (a = b)

/-- Embedding of fast-deep-equal on two objects: the key counts match and
every field of the first is present in the second with a deeply-equal
value (key order is irrelevant). -/
def objDeepEqual (a b : List (String × FVal)) : Bool :=
  decide (a.length = b.length) &&
    a.all fun kv =>
      match lookupField b kv.1 with
      | some v => fvalDeepEqual kv.2 v
      | none => false

/-- Embedding of fast-deep-equal on characteristic values: strict equality
short-circuit for identical primitives, element-wise comparison for arrays,
key-wise comparison for objects, false across different shapes. -/
def cvalDeepEqual : CVal → CVal → Bool
  | .prim a, .prim b => decide (a = b)
  | .arr a, .arr b => decide (a = b)
  | .obj a, .obj b => objDeepEqual a b
  | .null, .null => true
  | .undef, .undef => true
  | _, _ => false

/-- JavaScript property assignment on an association-list object: an
existing key keeps its position and gets the new value, a new key is
appended. -/
def setField : List (String × FVal) → String → FVal → List (String × FVal)
  | [], k, v => [(k, v)]
  | kv :: rest, k, v =>
    if kv.1 = k then (k, v) :: rest else kv :: setField rest k v

/-- Embedding of Object.assign(target, source) for two objects: each source
field is assigned into the target in source order. -/
def mergeFields (cur src : List (String × FVal)) : List (String × FVal) :=
  src.foldl (fun acc kv => setField acc kv.1 kv.2) cur

/-- Index-keyed fields of a primitive array, as enumerated by Object.assign
when the source of the merge is an array. -/
def primsToFields (xs : List Prim) : List (String × FVal) :=
  xs.enum.map fun p => (toString p.1, FVal.prim p.2)

/-- Embedding of the Object.assign(this[c], data[c]) call in update: only
reached when data[c] is object-typed and this[c] is truthy. Object targets
merge field-by-field (a null source assigns nothing; an array source
assigns its index-keyed elements); array targets get their indexed elements
overwritten (an object source assigns its in-range numeric prim-valued
keys; out-of-range or non-index expando properties fall outside the
CharacteristicValue type and are dropped); a truthy primitive target is
boxed by Object.assign and the boxed result is discarded, so the stored
value is unchanged. -/
def objectAssign : CVal → CVal → CVal
  | .obj cur, .obj src => .obj (mergeFields cur src)
  | .obj cur, .arr xs => .obj (mergeFields cur (primsToFields xs))
  | .obj cur, .null => .obj cur
  | .arr cur, .arr src => .arr (src ++ cur.drop src.length)
  | .arr cur, .obj src => .arr (src.foldl (fun acc kv =>
      match kv.1.toNat?, kv.2 with
      | some i, .prim p => if i < acc.length then acc.set i p else acc
      | _, _ => acc) cur)
  | .arr cur, .null => .arr cur
  | cur, _ => cur

/-- Property lookup on the component instance or the data record. -/
def lookupProp : List (String × CVal) → String → Option CVal
  | [], _ => none
  | kv :: rest, k => if kv.1 = k then some kv.2 else lookupProp rest k

/-- Property read: an absent property evaluates to undefined. -/
def getProp (st : List (String × CVal)) (k : String) : CVal :=
  (lookupProp st k).getD CVal.undef

/-- Embedding of Object.prototype.hasOwnProperty.call(data, c). -/
def hasOwn (data : List (String × CVal)) (k : String) : Bool :=
  data.any fun kv => decide (kv.1 = k)

/-- JavaScript property write: an existing key keeps its position, a new
key is appended. -/
def setProp : List (String × CVal) → String → CVal → List (String × CVal)
  | [], k, v => [(k, v)]
  | kv :: rest, k, v =>
    if kv.1 = k then (k, v) :: rest else kv :: setProp rest k v

/-- One iteration of the update loop for characteristic c: skip when the
data lacks the key; for an object-typed incoming value on a truthy current
value, skip when deeply equal and otherwise merge in place; otherwise skip
when strictly equal and otherwise assign. Returns the new state and whether
c was added to the changed set. -/
def updateStep (data st : List (String × CVal)) (c : String) :
    List (String × CVal) × Bool :=
  if hasOwn data c then
    let v := getProp data c
    let cur := getProp st c
    if jsTypeofObject v && jsTruthy cur then
      if cvalDeepEqual v cur then (st, false)
      else (setProp st c (objectAssign cur v), true)
    else
      if jsStrictEq v cur then (st, false)
      else (setProp st c v, true)
  else (st, false)

/-- The for-of loop of ComponentBase.update over the declared
characteristics, in declaration order: threads the state and collects the
changed characteristics in processing order (the insertion order of the
changed set in the source). -/
def updateLoop (data : List (String × CVal)) :
    List String → List (String × CVal) →
    List (String × CVal) × List String
  | [], st => (st, [])
  | c :: cs, st =>
    let step := updateStep data st c
    let rest := updateLoop data cs step.1
    (rest.1, (if step.2 then [c] else []) ++ rest.2)

/-- Result of one update call: the post-call state and the emitted change
events in emission order, each carrying the characteristic name and the
value read back from the state after the loop. -/
structure UpdateResult where
  state : List (String × CVal)
  events : List (String × CVal)
deriving DecidableEq

/-- Embedding of ComponentBase.update: run the loop over the declared
characteristics, then emit one change event per changed characteristic,
reading this[c] after all fields have been applied. The mirrored
per-characteristic change:name emission carries the same value and is not
modeled separately. -/
def componentUpdate (cs : List String) (data st : List (String × CVal)) :
    UpdateResult :=
  let r := updateLoop data cs st
  { state := r.1, events := r.2.map fun c => (c, getProp r.1 c) }

/-- Writing property k leaves every other property unchanged and makes
reading k return the written value. -/
theorem getProp_setProp (st : List (String × CVal)) (k : String) (v : CVal)
    (k2 : String) :
    getProp (setProp st k v) k2 = if k2 = k then v else getProp st k2 := by
  induction st with
  | nil =>
    by_cases h : k2 = k
    · simp [setProp, getProp, lookupProp, h]
    · have h2 : ¬ k = k2 := fun hh => h (Eq.symm hh)
      simp [setProp, getProp, lookupProp, h, h2]
  | cons kv rest ih =>
    by_cases h1 : kv.1 = k
    · by_cases h : k2 = k
      · simp [setProp, getProp, lookupProp, h1, h]
      · have h2 : ¬ k = k2 := fun hh => h (Eq.symm hh)
        simp [setProp, getProp, lookupProp, h1, h, h2]
    · by_cases h2 : kv.1 = k2
      · have h3 : ¬ k2 = k := fun hh => h1 (h2.trans hh)
        simp [setProp, getProp, lookupProp, h1, h2, h3]
      · simp only [setProp, if_neg h1]
        simp only [getProp] at ih
        simp [getProp, lookupProp, h2, ih]

/-- One update iteration for characteristic c does not touch any other
property. -/
theorem updateStep_fst_other (data st : List (String × CVal)) (c c2 : String)
    (h : c2 ≠ c) :
    getProp (updateStep data st c).1 c2 = getProp st c2 := by
  by_cases h1 : hasOwn data c
  · by_cases h2 : (jsTypeofObject (getProp data c) && jsTruthy (getProp st c)) = true
    · by_cases h3 : cvalDeepEqual (getProp data c) (getProp st c) = true
      · simp [updateStep, h1, h2, h3]
      · simp [updateStep, h1, h2, h3, getProp_setProp, h]
    · by_cases h3 : jsStrictEq (getProp data c) (getProp st c) = true
      · simp [updateStep, h1, h2, h3]
      · simp [updateStep, h1, h2, h3, getProp_setProp, h]
  · simp [updateStep, h1]

/-- An update iteration that does not mark its characteristic as changed
leaves the state untouched. -/
theorem updateStep_false_fst (data st : List (String × CVal)) (c : String)
    (h : (updateStep data st c).2 = false) :
    (updateStep data st c).1 = st := by
  by_cases h1 : hasOwn data c
  · by_cases h2 : (jsTypeofObject (getProp data c) && jsTruthy (getProp st c)) = true
    · by_cases h3 : cvalDeepEqual (getProp data c) (getProp st c) = true
      · simp [updateStep, h1, h2, h3]
      · simp [updateStep, h1, h2, h3] at h
    · by_cases h3 : jsStrictEq (getProp data c) (getProp st c) = true
      · simp [updateStep, h1, h2, h3]
      · simp [updateStep, h1, h2, h3] at h
  · simp [updateStep, h1]

/-- The changed flag and the resulting own-property value of one update
iteration depend on the prior state only through the value of the
characteristic being processed. -/
theorem updateStep_congr (data st1 st2 : List (String × CVal)) (c : String)
    (h : getProp st1 c = getProp st2 c) :
    (updateStep data st1 c).2 = (updateStep data st2 c).2 ∧
    getProp (updateStep data st1 c).1 c = getProp (updateStep data st2 c).1 c := by
  by_cases h1 : hasOwn data c
  · by_cases h2 : (jsTypeofObject (getProp data c) && jsTruthy (getProp st2 c)) = true
    · by_cases h3 : cvalDeepEqual (getProp data c) (getProp st2 c) = true
      · simp [updateStep, h1, h, h2, h3]
      · simp [updateStep, h1, h, h2, h3, getProp_setProp]
    · by_cases h3 : jsStrictEq (getProp data c) (getProp st2 c) = true
      · simp [updateStep, h1, h, h2, h3]
      · simp [updateStep, h1, h, h2, h3, getProp_setProp]
  · simp [updateStep, h1, h]

/-- The changed list collected by the update loop is exactly the declared
characteristic list filtered by the changed flag evaluated against the
pre-call state, in declaration order. -/
theorem updateLoop_changed (data : List (String × CVal)) :
    ∀ (cs : List String) (st : List (String × CVal)), cs.Nodup →
      (updateLoop data cs st).2
        = cs.filter fun c => (updateStep data st c).2 := by
  intro cs
  induction cs with
  | nil => intro st _; rfl
  | cons c cs ih =>
    intro st h
    obtain ⟨hc, hcs⟩ := List.nodup_cons.mp h
    have hrest : (updateLoop data cs (updateStep data st c).1).2
        = cs.filter fun c2 => (updateStep data st c2).2 := by
      rw [ih _ hcs]
      apply List.filter_congr
      intro c2 hc2
      have hne : c2 ≠ c := fun hh => hc (hh ▸ hc2)
      exact (updateStep_congr data (updateStep data st c).1 st c2
        (updateStep_fst_other data st c c2 hne)).1
    by_cases hf : (updateStep data st c).2 = true
    · simp [updateLoop, hf, hrest, List.filter_cons]
    · simp only [Bool.not_eq_true] at hf
      simp [updateLoop, hf, hrest, List.filter_cons]

/-- After the update loop, the value of property k is the value produced by
its own iteration against the pre-call state when k is a changed declared
characteristic, and the pre-call value otherwise. -/
theorem updateLoop_getProp (data : List (String × CVal)) :
    ∀ (cs : List String) (st : List (String × CVal)) (k : String), cs.Nodup →
      getProp (updateLoop data cs st).1 k
        = if k ∈ cs ∧ (updateStep data st k).2 = true
          then getProp (updateStep data st k).1 k
          else getProp st k := by
  intro cs
  induction cs with
  | nil => intro st k _; simp [updateLoop]
  | cons c cs ih =>
    intro st k h
    obtain ⟨hc, hcs⟩ := List.nodup_cons.mp h
    have hloop : (updateLoop data (c :: cs) st).1
        = (updateLoop data cs (updateStep data st c).1).1 := rfl
    by_cases hk : k = c
    · subst hk
      have hnotin : k ∉ cs := hc
      rw [hloop, ih _ _ hcs]
      by_cases hf : (updateStep data st k).2 = true
      · simp [hnotin, hf]
      · simp only [Bool.not_eq_true] at hf
        have := updateStep_false_fst data st k hf
        simp [hnotin, hf, this]
    · have hother : getProp (updateStep data st c).1 k = getProp st k :=
        updateStep_fst_other data st c k hk
      have hcongr := updateStep_congr data (updateStep data st c).1 st k hother
      rw [hloop, ih _ _ hcs]
      by_cases hin : k ∈ cs
      · by_cases hf : (updateStep data st k).2 = true
        · simp [hin, hf, hcongr.1, hcongr.2, hk]
        · simp only [Bool.not_eq_true] at hf
          simp [hin, hf, hcongr.1, hother, hk]
      · simp [hin, hother, hk]

/-- C6: for every update call (with the declared characteristics free of
duplicates, as they form a set in the source), the emitted change events
are exactly the changed characteristics in declaration order, and every
event carries the value the characteristic holds in the final post-update
state: notifications fire only after all fields have been applied. -/
theorem c6_events_after_apply_in_declared_order
    (cs : List String) (data st : List (String × CVal)) (h : cs.Nodup) :
    (componentUpdate cs data st).events
      = (cs.filter fun c => (updateStep data st c).2).map
          fun c => (c, getProp (componentUpdate cs data st).state c) := by
  simp only [componentUpdate]
  rw [updateLoop_changed data cs st h]

/-- Witness for c6_events_after_apply_in_declared_order: a two-characteristic
component where one scalar changes and one compound merges. -/
theorem c6_events_witness :
    (componentUpdate ["output", "temperature"]
        [("temperature", CVal.obj [("tC", FVal.prim (.n 21))]),
         ("output", CVal.prim (.b true))]
        [("output", CVal.prim (.b false)),
         ("temperature", CVal.obj [("tC", FVal.null), ("tF", FVal.null)])]).events
      = (List.filter
          (fun c => (updateStep
            [("temperature", CVal.obj [("tC", FVal.prim (.n 21))]),
             ("output", CVal.prim (.b true))]
            [("output", CVal.prim (.b false)),
             ("temperature", CVal.obj [("tC", FVal.null), ("tF", FVal.null)])] c).2)
          ["output", "temperature"]).map
          (fun c => (c, getProp (componentUpdate ["output", "temperature"]
            [("temperature", CVal.obj [("tC", FVal.prim (.n 21))]),
             ("output", CVal.prim (.b true))]
            [("output", CVal.prim (.b false)),
             ("temperature", CVal.obj [("tC", FVal.null), ("tF", FVal.null)])]).state c)) :=
  c6_events_after_apply_in_declared_order ["output", "temperature"]
    [("temperature", CVal.obj [("tC", FVal.prim (.n 21))]),
     ("output", CVal.prim (.b true))]
    [("output", CVal.prim (.b false)),
     ("temperature", CVal.obj [("tC", FVal.null), ("tF", FVal.null)])]
    (by decide)

/-- C9: an update whose payload keys are all disjoint from the declared
characteristic names leaves the state untouched and emits no change
events. -/
theorem c9_unknown_keys_are_ignored
    (cs : List String) (data st : List (String × CVal))
    (h : ∀ c ∈ cs, hasOwn data c = false) :
    componentUpdate cs data st = { state := st, events := [] } := by
  have hloop : ∀ (cs2 : List String), (∀ c ∈ cs2, hasOwn data c = false) →
      updateLoop data cs2 st = (st, []) := by
    intro cs2
    induction cs2 with
    | nil => intro _; rfl
    | cons c cs2 ih =>
      intro h2
      have hstep : updateStep data st c = (st, false) := by
        simp [updateStep, h2 c (List.mem_cons_self c cs2)]
      simp [updateLoop, hstep, ih fun c2 hc2 => h2 c2 (List.mem_cons_of_mem c hc2)]
  simp [componentUpdate, hloop cs h]

/-- Witness for c9_unknown_keys_are_ignored: a switch-like component given a
payload with only unknown keys. -/
theorem c9_unknown_keys_witness :
    componentUpdate ["source", "output"]
        [("id", CVal.prim (.n 0)), ("brightness", CVal.prim (.n 50))]
        [("source", CVal.prim (.s "init")), ("output", CVal.prim (.b false))]
      = { state := [("source", CVal.prim (.s "init")),
                    ("output", CVal.prim (.b false))],
          events := [] } :=
  c9_unknown_keys_are_ignored ["source", "output"]
    [("id", CVal.prim (.n 0)), ("brightness", CVal.prim (.n 50))]
    [("source", CVal.prim (.s "init")), ("output", CVal.prim (.b false))]
    (by decide)

/-- Number of declared characteristics whose value after the update call
differs from their value immediately before it (the quantity the
change-event count is claimed to equal). -/
def changedValueCount (cs : List String) (data st : List (String × CVal)) : Nat :=
  (cs.filter fun c =>
    decide (getProp (componentUpdate cs data st).state c ≠ getProp st c)).length

/-- C3 counterexample: updating a compound characteristic whose current value
is an object with fields tC and tF with a payload holding only the
deeply-equal tC field is not deep-equal as a whole (different key counts),
so the merge runs and a change event fires, yet the merged value is
identical to the previous one: one event, zero value changes. -/
theorem c3_counterexample :
    ¬ ((componentUpdate ["temperature"]
          [("temperature", CVal.obj [("tC", FVal.prim (.n 1))])]
          [("temperature", CVal.obj
            [("tC", FVal.prim (.n 1)), ("tF", FVal.prim (.n 2))])]).events.length
        = changedValueCount ["temperature"]
            [("temperature", CVal.obj [("tC", FVal.prim (.n 1))])]
            [("temperature", CVal.obj
              [("tC", FVal.prim (.n 1)), ("tF", FVal.prim (.n 2))])]) := by
  decide

/-- C3 (amended): the number of change events emitted by one update call
equals the number of declared characteristics present in the payload whose
incoming value differs from the pre-call value under the code's comparison
(deep equality when the incoming value is object-typed and the current
value truthy, strict equality otherwise); this count can exceed the number
of characteristics whose value actually differs after the call, because an
in-place merge of a not-deeply-equal payload subset can reproduce the
previous value. -/
theorem c3_event_count_per_call
    (cs : List String) (data st : List (String × CVal)) (h : cs.Nodup) :
    (componentUpdate cs data st).events.length
      = (cs.filter fun c => (updateStep data st c).2).length := by
  simp only [componentUpdate, List.length_map]
  rw [updateLoop_changed data cs st h]

/-- Witness for c3_event_count_per_call at the counterexample input: one
event, one characteristic with an unequal incoming value. -/
theorem c3_event_count_witness :
    (componentUpdate ["temperature"]
        [("temperature", CVal.obj [("tC", FVal.prim (.n 1))])]
        [("temperature", CVal.obj
          [("tC", FVal.prim (.n 1)), ("tF", FVal.prim (.n 2))])]).events.length
      = (List.filter
          (fun c => (updateStep
            [("temperature", CVal.obj [("tC", FVal.prim (.n 1))])]
            [("temperature", CVal.obj
              [("tC", FVal.prim (.n 1)), ("tF", FVal.prim (.n 2))])] c).2)
          ["temperature"]).length :=
  c3_event_count_per_call ["temperature"]
    [("temperature", CVal.obj [("tC", FVal.prim (.n 1))])]
    [("temperature", CVal.obj
      [("tC", FVal.prim (.n 1)), ("tF", FVal.prim (.n 2))])]
    (by decide)

/-- A successful field lookup means the pair is a member of the object. -/
theorem lookupField_mem_pair (g : List (String × FVal)) (k : String) (v : FVal)
    (h : lookupField g k = some v) : (k, v) ∈ g := by
  induction g with
  | nil => cases h
  | cons kv g ih =>
    cases kv with
    | mk k1 v1 =>
      by_cases hk : k1 = k
      · simp only [lookupField, if_pos hk] at h
        injection h with h2
        subst hk
        subst h2
        exact List.mem_cons_self _ _
      · simp only [lookupField, if_neg hk] at h
        exact List.mem_cons_of_mem _ (ih h)

/-- A successful field lookup means the key occurs in the object's keys. -/
theorem lookupField_mem_keys (g : List (String × FVal)) (k : String) (v : FVal)
    (h : lookupField g k = some v) : k ∈ g.map Prod.fst :=
  List.mem_map.mpr ⟨(k, v), lookupField_mem_pair g k v h, rfl⟩

/-- A key that does not occur among the object's keys looks up to nothing. -/
theorem lookupField_of_not_mem_keys (g : List (String × FVal)) (k : String)
    (h : k ∉ g.map Prod.fst) : lookupField g k = none := by
  induction g with
  | nil => rfl
  | cons kv g ih =>
    simp only [List.map_cons, List.mem_cons] at h
    push_neg at h
    have hne : ¬ kv.1 = k := fun hh => h.1 (Eq.symm hh)
    simp only [lookupField, if_neg hne]
    exact ih h.2

/-- Reading back an assigned field gives the assigned value; other fields
are untouched. -/
theorem lookupField_setField (f : List (String × FVal)) (k : String) (v : FVal)
    (k2 : String) :
    lookupField (setField f k v) k2
      = if k2 = k then some v else lookupField f k2 := by
  induction f with
  | nil =>
    by_cases h : k2 = k
    · simp [setField, lookupField, h]
    · have h2 : ¬ k = k2 := fun hh => h (Eq.symm hh)
      simp [setField, lookupField, h, h2]
  | cons kv rest ih =>
    by_cases h1 : kv.1 = k
    · by_cases h : k2 = k
      · simp [setField, lookupField, h1, h]
      · have h2 : ¬ k = k2 := fun hh => h (Eq.symm hh)
        simp [setField, lookupField, h1, h, h2]
    · by_cases h2 : kv.1 = k2
      · have h3 : ¬ k2 = k := fun hh => h1 (h2.trans hh)
        simp [setField, lookupField, h1, h2, h3]
      · simp only [setField, if_neg h1]
        simp [lookupField, h2, ih]

/-- In an object with duplicate-free keys, every member pair is found by
lookup. -/
theorem lookupField_of_mem_nodup (g : List (String × FVal))
    (kv : String × FVal) (hg : (g.map Prod.fst).Nodup) (h : kv ∈ g) :
    lookupField g kv.1 = some kv.2 := by
  induction g with
  | nil => cases h
  | cons a g ih =>
    rw [List.map_cons] at hg
    obtain ⟨ha, hg2⟩ := List.nodup_cons.mp hg
    cases List.mem_cons.mp h with
    | inl hh =>
      subst hh
      simp [lookupField]
    | inr hh =>
      have hne : a.1 ≠ kv.1 := by
        intro he
        exact ha (he ▸ List.mem_map_of_mem Prod.fst hh)
      simp only [lookupField, if_neg hne]
      exact ih hg2 hh

/-- Deep object equality fails when some field of the first object is absent
or different in the second. -/
theorem objDeepEqual_false_of_field (g f : List (String × FVal)) (k : String)
    (v : FVal) (hk : lookupField g k = some v)
    (hne : lookupField f k ≠ some v) : objDeepEqual g f = false := by
  have hmem : (k, v) ∈ g := lookupField_mem_pair g k v hk
  have hall : (g.all fun kv =>
      match lookupField f kv.1 with
      | some w => fvalDeepEqual kv.2 w
      | none => false) = false := by
    rw [List.all_eq_false]
    refine ⟨(k, v), hmem, ?_⟩
    cases hlf : lookupField f k with
    | none => simp [hlf]
    | some w =>
      have hwv : ¬ v = w := fun hh => hne (hh ▸ hlf)
      simp [hlf, fvalDeepEqual, hwv]
  simp [objDeepEqual, hall]

/-- Assigning a field the value it already holds leaves the object
unchanged. -/
theorem setField_self (f : List (String × FVal)) (k : String) (w : FVal)
    (h : lookupField f k = some w) : setField f k w = f := by
  induction f with
  | nil => cases h
  | cons kv f ih =>
    cases kv with
    | mk k1 v1 =>
      by_cases hk : k1 = k
      · simp only [lookupField, if_pos hk] at h
        injection h with h2
        subst hk
        subst h2
        simp [setField]
      · simp only [lookupField, if_neg hk] at h
        simp [setField, hk, ih h]

/-- Merging an object every field of which the target already holds is a
no-op. -/
theorem mergeFields_noop (g : List (String × FVal)) :
    ∀ f, (∀ kv ∈ g, lookupField f kv.1 = some kv.2) → mergeFields f g = f := by
  induction g with
  | nil => intro f _; rfl
  | cons kv g ih =>
    intro f h
    have hhead : setField f kv.1 kv.2 = f :=
      setField_self f kv.1 kv.2 (h kv (List.mem_cons_self kv g))
    show mergeFields (setField f kv.1 kv.2) g = f
    rw [hhead]
    exact ih f fun kv2 hk2 => h kv2 (List.mem_cons_of_mem kv hk2)

/-- Merging a payload that agrees with the target on every field except one
is exactly a single-field assignment. -/
theorem mergeFields_single_diff (g : List (String × FVal)) :
    ∀ (f : List (String × FVal)) (k : String) (v : FVal),
      (g.map Prod.fst).Nodup →
      lookupField g k = some v →
      (∀ k2 w, k2 ≠ k → lookupField g k2 = some w → lookupField f k2 = some w) →
      mergeFields f g = setField f k v := by
  induction g with
  | nil => intro f k v _ hk _; cases hk
  | cons kv g ih =>
    intro f k v hg hk hsib
    rw [List.map_cons] at hg
    obtain ⟨hknotin, hgtail⟩ := List.nodup_cons.mp hg
    by_cases hhead : kv.1 = k
    · simp only [lookupField, if_pos hhead] at hk
      injection hk with hkv
      show mergeFields (setField f kv.1 kv.2) g = setField f k v
      rw [hhead, hkv]
      apply mergeFields_noop
      intro kv2 hk2
      have hk2ne : kv2.1 ≠ k := by
        intro hh
        apply hknotin
        rw [hhead, ← hh]
        exact List.mem_map_of_mem Prod.fst hk2
      rw [lookupField_setField, if_neg hk2ne]
      apply hsib kv2.1 kv2.2 hk2ne
      have hne2 : kv.1 ≠ kv2.1 := by
        intro hh
        apply hknotin
        rw [hh]
        exact List.mem_map_of_mem Prod.fst hk2
      simp only [lookupField, if_neg hne2]
      exact lookupField_of_mem_nodup g kv2 hgtail hk2
    · simp only [lookupField, if_neg hhead] at hk
      have hheadnoop : setField f kv.1 kv.2 = f := by
        apply setField_self
        apply hsib kv.1 kv.2 hhead
        simp [lookupField]
      show mergeFields (setField f kv.1 kv.2) g = setField f k v
      rw [hheadnoop]
      apply ih f k v hgtail hk
      intro k2 w hk2 hlk2
      have hk2kv : kv.1 ≠ k2 := by
        intro hh
        apply hknotin
        rw [hh]
        exact lookupField_mem_keys g k2 w hlk2
      apply hsib k2 w hk2
      simp only [lookupField, if_neg hk2kv]
      exact hlk2

/-- A key that looks up successfully satisfies the hasOwnProperty test. -/
theorem hasOwn_of_lookupProp (data : List (String × CVal)) (k : String)
    (v : CVal) (h : lookupProp data k = some v) : hasOwn data k = true := by
  induction data with
  | nil => cases h
  | cons kv rest ih =>
    by_cases hk : kv.1 = k
    · simp [hasOwn, hk]
    · simp only [lookupProp, if_neg hk] at h
      have := ih h
      simp only [hasOwn] at this
      simp [hasOwn, hk, this]

/-- Filtering for a key whose changed flag is false yields nothing. -/
theorem filter_key_nil (l : List String) (f : String → Bool) (c : String)
    (hf : f c = false) :
    ((l.filter f).filter fun x => decide (x = c)) = [] := by
  induction l with
  | nil => rfl
  | cons a l ih =>
    by_cases hfa : f a = true
    · by_cases hac : a = c
      · subst hac
        rw [hfa] at hf
        cases hf
      · simp [List.filter_cons, hfa, hac, ih]
    · simp only [Bool.not_eq_true] at hfa
      simp [List.filter_cons, hfa, ih]

/-- Filtering for a key that is not in the list yields nothing. -/
theorem filter_key_nil_of_not_mem (l : List String) (f : String → Bool)
    (c : String) (hm : c ∉ l) :
    ((l.filter f).filter fun x => decide (x = c)) = [] := by
  induction l with
  | nil => rfl
  | cons a l ih =>
    have hml : c ∉ l := fun hh => hm (List.mem_cons_of_mem a hh)
    have hac : ¬ a = c := fun hh => hm (hh ▸ List.mem_cons_self a l)
    by_cases hfa : f a = true
    · simp [List.filter_cons, hfa, hac, ih hml]
    · simp only [Bool.not_eq_true] at hfa
      simp [List.filter_cons, hfa, ih hml]

/-- In a duplicate-free list, filtering the changed entries for one key with
a true flag yields that key exactly once. -/
theorem filter_key_single (l : List String) (f : String → Bool) (c : String)
    (h : l.Nodup) (hm : c ∈ l) (hf : f c = true) :
    ((l.filter f).filter fun x => decide (x = c)) = [c] := by
  induction l with
  | nil => cases hm
  | cons a l ih =>
    obtain ⟨ha, hl⟩ := List.nodup_cons.mp h
    by_cases hac : a = c
    · subst hac
      simp [List.filter_cons, hf, filter_key_nil_of_not_mem l f a ha]
    · have hm2 : c ∈ l := by
        cases List.mem_cons.mp hm with
        | inl hh => exact absurd hh.symm hac
        | inr hh => exact hh
      by_cases hfa : f a = true
      · simp [List.filter_cons, hfa, hac, ih hl hm2]
      · simp only [Bool.not_eq_true] at hfa
        simp [List.filter_cons, hfa, ih hl hm2]

/-- Filtering emitted events by key commutes with building them from the
changed-characteristic list. -/
theorem map_filter_key (l : List String) (st2 : List (String × CVal))
    (c : String) :
    ((l.map fun x => (x, getProp st2 x)).filter fun e => decide (e.1 = c))
      = ((l.filter fun x => decide (x = c)).map fun x => (x, getProp st2 x)) := by
  induction l with
  | nil => rfl
  | cons a l ih =>
    by_cases hac : a = c
    · simp [List.filter_cons, hac, ih]
    · simp [List.filter_cons, hac, ih]

/-- The update iteration for a compound characteristic: with an object-typed
incoming value on a truthy current object, it skips when deeply equal and
otherwise merges field-by-field in place. -/
theorem updateStep_obj (data st : List (String × CVal)) (c : String)
    (f g : List (String × FVal))
    (hcur : getProp st c = .obj f)
    (hdata : lookupProp data c = some (.obj g)) :
    updateStep data st c
      = if objDeepEqual g f then (st, false)
        else (setProp st c (.obj (mergeFields f g)), true) := by
  have hown : hasOwn data c = true := hasOwn_of_lookupProp data c _ hdata
  have hv : getProp data c = .obj g := by simp [getProp, hdata]
  by_cases hde : objDeepEqual g f = true
  · simp [updateStep, hown, hv, hcur, jsTypeofObject, jsTruthy, cvalDeepEqual,
      hde]
  · simp only [Bool.not_eq_true] at hde
    simp [updateStep, hown, hv, hcur, jsTypeofObject, jsTruthy, cvalDeepEqual,
      hde, objectAssign]

/-- C5: for a compound characteristic c whose current value is the object f,
an update whose payload carries a deeply-equal object emits no change event
for c and leaves its value untouched, while an update whose payload differs
from f in exactly the field k (agreeing on every other field it carries)
emits exactly one change event for c, carrying the merged value, and the
merged value is f with only field k reassigned, all sibling fields intact
(lookupField_setField: every field other than k reads back unchanged). -/
theorem c5_compound_deep_equal_skip_and_single_field_merge
    (cs : List String) (st : List (String × CVal)) (c : String)
    (f g1 g2 : List (String × FVal)) (data1 data2 : List (String × CVal))
    (k : String) (v : FVal)
    (hnodup : cs.Nodup) (hc : c ∈ cs)
    (hcur : getProp st c = .obj f)
    (hdata1 : lookupProp data1 c = some (.obj g1))
    (heq : objDeepEqual g1 f = true)
    (hdata2 : lookupProp data2 c = some (.obj g2))
    (hg2 : (g2.map Prod.fst).Nodup)
    (hk : lookupField g2 k = some v)
    (hne : lookupField f k ≠ some v)
    (hsib : ∀ k2 w, k2 ≠ k → lookupField g2 k2 = some w →
      lookupField f k2 = some w) :
    (((componentUpdate cs data1 st).events.filter fun e => decide (e.1 = c)) = []
     ∧ getProp (componentUpdate cs data1 st).state c = .obj f)
    ∧ (((componentUpdate cs data2 st).events.filter fun e => decide (e.1 = c))
         = [(c, .obj (setField f k v))]
       ∧ getProp (componentUpdate cs data2 st).state c
           = .obj (setField f k v)) := by
  have hstep1 : updateStep data1 st c = (st, false) := by
    rw [updateStep_obj data1 st c f g1 hcur hdata1, if_pos heq]
  have hmerge : mergeFields f g2 = setField f k v :=
    mergeFields_single_diff g2 f k v hg2 hk hsib
  have hdeep2 : objDeepEqual g2 f = false :=
    objDeepEqual_false_of_field g2 f k v hk hne
  have hstep2 : updateStep data2 st c
      = (setProp st c (.obj (setField f k v)), true) := by
    rw [updateStep_obj data2 st c f g2 hcur hdata2, if_neg (by simp [hdeep2]),
      hmerge]
  constructor
  · constructor
    · simp only [componentUpdate]
      rw [updateLoop_changed data1 cs st hnodup, map_filter_key,
        filter_key_nil cs _ c (by simp [hstep1])]
      rfl
    · simp only [componentUpdate]
      rw [updateLoop_getProp data1 cs st c hnodup]
      simp [hstep1, hcur]
  · have hflag2 : (updateStep data2 st c).2 = true := by simp [hstep2]
    have hval2 : getProp (updateLoop data2 cs st).1 c = .obj (setField f k v) := by
      rw [updateLoop_getProp data2 cs st c hnodup]
      simp [hc, hflag2, hstep2, getProp_setProp]
    constructor
    · simp only [componentUpdate]
      rw [updateLoop_changed data2 cs st hnodup, map_filter_key,
        filter_key_single cs _ c hnodup hc hflag2]
      simp [hval2]
    · simp only [componentUpdate]
      exact hval2

/-- Witness for c5_compound_deep_equal_skip_and_single_field_merge: a
temperature characteristic holding tC and tF, first updated with a
deeply-equal payload in a different key order, then with a payload changing
only tC. -/
theorem c5_compound_update_witness :
    (((componentUpdate ["temperature"]
          [("temperature", CVal.obj
            [("tF", FVal.prim (.n 68)), ("tC", FVal.prim (.n 20))])]
          [("temperature", CVal.obj
            [("tC", FVal.prim (.n 20)), ("tF", FVal.prim (.n 68))])]).events.filter
        fun e => decide (e.1 = "temperature")) = []
     ∧ getProp (componentUpdate ["temperature"]
          [("temperature", CVal.obj
            [("tF", FVal.prim (.n 68)), ("tC", FVal.prim (.n 20))])]
          [("temperature", CVal.obj
            [("tC", FVal.prim (.n 20)), ("tF", FVal.prim (.n 68))])]).state
          "temperature"
        = .obj [("tC", FVal.prim (.n 20)), ("tF", FVal.prim (.n 68))])
    ∧ (((componentUpdate ["temperature"]
          [("temperature", CVal.obj [("tC", FVal.prim (.n 21))])]
          [("temperature", CVal.obj
            [("tC", FVal.prim (.n 20)), ("tF", FVal.prim (.n 68))])]).events.filter
        fun e => decide (e.1 = "temperature"))
          = [("temperature", .obj (setField
              [("tC", FVal.prim (.n 20)), ("tF", FVal.prim (.n 68))] "tC"
              (FVal.prim (.n 21))))]
       ∧ getProp (componentUpdate ["temperature"]
          [("temperature", CVal.obj [("tC", FVal.prim (.n 21))])]
          [("temperature", CVal.obj
            [("tC", FVal.prim (.n 20)), ("tF", FVal.prim (.n 68))])]).state
          "temperature"
        = .obj (setField
            [("tC", FVal.prim (.n 20)), ("tF", FVal.prim (.n 68))] "tC"
            (FVal.prim (.n 21)))) :=
  c5_compound_deep_equal_skip_and_single_field_merge ["temperature"]
    [("temperature", CVal.obj
      [("tC", FVal.prim (.n 20)), ("tF", FVal.prim (.n 68))])]
    "temperature"
    [("tC", FVal.prim (.n 20)), ("tF", FVal.prim (.n 68))]
    [("tF", FVal.prim (.n 68)), ("tC", FVal.prim (.n 20))]
    [("tC", FVal.prim (.n 21))]
    [("temperature", CVal.obj
      [("tF", FVal.prim (.n 68)), ("tC", FVal.prim (.n 20))])]
    [("temperature", CVal.obj [("tC", FVal.prim (.n 21))])]
    "tC" (FVal.prim (.n 21))
    (by decide) (by decide) (by decide) (by decide) (by decide) (by decide)
    (by decide) (by decide) (by decide)
    (by
      intro k2 w hk2 hlk2
      by_cases hh : k2 = "tC"
      · exact absurd hh hk2
      · have hh2 : ¬ ("tC" = k2) := fun he => hh (Eq.symm he)
        simp [lookupField, hh2] at hlk2)

/-! ## WebSocket RPC handler reconnect logic (src/rpc/websocket.ts) -/

/-- Configuration options of the WebSocket RPC handler
(WebSocketRpcHandlerOptions). The reconnectInterval option accepts a single
number or an array; scheduleConnect normalizes a single number into a
one-element array, so it is modeled as the normalized list. -/
structure WebSocketRpcHandlerOptions where
  clientId : String
  requestTimeout : Int
  pingInterval : Int
  reconnectInterval : List Int
  password : Option String
deriving DecidableEq

/-- Mutable handler state relevant to reconnection: the index into the
reconnect-interval list and whether this.timeout currently holds a pending
timer. -/
structure WsState where
  reconnectIntervalIndex : Nat
  timeoutActive : Bool
deriving DecidableEq

/-- Embedding of WebSocketRpcHandler.scheduleConnect: no interval list means
no attempt; a selected interval of zero or less (times 1000) means no
attempt; otherwise a timer is armed and the wait in milliseconds is
returned. The selected index stays within bounds because it is only ever
advanced while strictly below the last position and reset to zero. -/
def scheduleConnect (opts : WebSocketRpcHandlerOptions) (st : WsState) :
    Option Int × WsState :=
  let intervals := opts.reconnectInterval
  if intervals.length = 0 then (none, st)
  else
    let interval := intervals.getD st.reconnectIntervalIndex 0 * 1000
    if interval ≤ 0 then (none, st)
    else (some interval, { st with timeoutActive := true })

/-- The body of the timer armed by scheduleConnect, up to the connect
attempt itself: the timer slot is cleared and the interval index advances
unless it already points at the last list entry. -/
def reconnectTimerFire (opts : WebSocketRpcHandlerOptions) (st : WsState) :
    WsState :=
  { st with
    timeoutActive := false
    reconnectIntervalIndex :=
      if st.reconnectIntervalIndex < opts.reconnectInterval.length - 1
      then st.reconnectIntervalIndex + 1
      else st.reconnectIntervalIndex }

/-- Embedding of WebSocketRpcHandler.handleClose: any pending timer is
cleared; unless the close code is the normal closure code 1000, a reconnect
is scheduled; returns the milliseconds until the next attempt (null when
none was scheduled) as passed to the disconnect event. -/
def handleClose (opts : WebSocketRpcHandlerOptions) (code : Int)
    (st : WsState) : Option Int × WsState :=
  let st1 := { st with timeoutActive := false }
  if code ≠ 1000 then scheduleConnect opts st1 else (none, st1)

/-- Embedding of WebSocketRpcHandler.handleOpen: a successful open resets
the reconnect-interval index to zero and arms the keepalive ping timer when
the ping interval is positive. -/
def handleOpen (opts : WebSocketRpcHandlerOptions) (st : WsState) : WsState :=
  { st with
    reconnectIntervalIndex := 0
    timeoutActive := decide (0 < opts.pingInterval) }

/-- A run of n consecutive abnormal closes since the last successful open:
each close schedules a reconnect whose timer then fires (performing the
failed connection attempt that leads to the next close). Collects the
scheduled delays in order. -/
def abnormalCloseRun (opts : WebSocketRpcHandlerOptions) (code : Int) :
    Nat → WsState → List (Option Int)
  | 0, _ => []
  | n + 1, st =>
    let r := handleClose opts code st
    r.1 :: abnormalCloseRun opts code n (reconnectTimerFire opts r.2)

/-- Handler state right after a successful open with pings disabled. -/
def wsInitialState : WsState :=
  { reconnectIntervalIndex := 0, timeoutActive := false }

/-- The options used by the C4 scenario: reconnect-interval list 5, 10, 30. -/
def wsTestOptions : WebSocketRpcHandlerOptions :=
  { clientId := "node-shellies-ng-1", requestTimeout := 10, pingInterval := 0,
    reconnectInterval := [5, 10, 30], password := none }

/-- C4: with reconnect-interval list 5, 10, 30, the first four abnormal
closes (any code other than 1000) since the last successful open schedule
reconnect attempts after 5, 10, 30 and 30 seconds (in milliseconds: the
index clamps at the last entry); a close with the normal closure code 1000
schedules no reconnect; a successful open resets the attempt index to 0;
a selected interval value of 0, or an empty interval list, schedules no
reconnect. -/
theorem c4_reconnect_backoff_schedule (code : Int) (hcode : code ≠ 1000) :
    abnormalCloseRun wsTestOptions code 4 wsInitialState
        = [some 5000, some 10000, some 30000, some 30000]
      ∧ (∀ opts st, (handleClose opts 1000 st).1 = none)
      ∧ (∀ opts st, (handleOpen opts st).reconnectIntervalIndex = 0)
      ∧ (∀ opts st, opts.reconnectInterval.getD st.reconnectIntervalIndex 0 = 0 →
          (scheduleConnect opts st).1 = none)
      ∧ (∀ opts st, opts.reconnectInterval = [] →
          (scheduleConnect opts st).1 = none) := by
  refine ⟨?_, ?_, ?_, ?_, ?_⟩
  · simp [abnormalCloseRun, handleClose, scheduleConnect, reconnectTimerFire,
      wsTestOptions, wsInitialState, hcode]
  · intro opts st
    simp [handleClose]
  · intro opts st
    rfl
  · intro opts st h
    have h2 : opts.reconnectInterval.getD st.reconnectIntervalIndex 0 * 1000 ≤ 0 := by
      rw [h]
      decide
    by_cases hlen : opts.reconnectInterval.length = 0
    · simp [scheduleConnect, hlen]
    · simp only [scheduleConnect]
      rw [if_neg hlen, if_pos h2]
  · intro opts st h
    simp [scheduleConnect, h]

/-- Witness for c4_reconnect_backoff_schedule at the abnormal close code
1006. -/
theorem c4_reconnect_backoff_witness :
    abnormalCloseRun wsTestOptions 1006 4 wsInitialState
        = [some 5000, some 10000, some 30000, some 30000]
      ∧ (∀ opts st, (handleClose opts 1000 st).1 = none)
      ∧ (∀ opts st, (handleOpen opts st).reconnectIntervalIndex = 0)
      ∧ (∀ opts st, opts.reconnectInterval.getD st.reconnectIntervalIndex 0 = 0 →
          (scheduleConnect opts st).1 = none)
      ∧ (∀ opts st, opts.reconnectInterval = [] →
          (scheduleConnect opts st).1 = none) :=
  c4_reconnect_backoff_schedule 1006 (by decide)

/-! ## Component keys and the device component table
(src/components/base.ts, ComponentBase and ComponentWithId constructors;
src/devices/base.ts, Device.components) -/

/-- Embedding of the ComponentBase constructor key computation: the
explicitly supplied key, or the component name lower-cased when the key
argument is null. -/
def componentKeyOf (name : String) (key : Option String) : String :=
  match key with
  | some k => k
  | none => name.toLower

/-- Embedding of the ComponentWithId constructor key computation: the base
key with a colon and the numeric instance id appended (the id parameter
defaults to 0 in the source). -/
def componentWithIdKeyOf (name : String) (key : Option String) (id : Nat) :
    String :=
  componentKeyOf name key ++ ":" ++ toString id

/-- JavaScript Map.set on an association list: an existing key keeps its
position and gets the new value, a new key is appended. -/
def mapSet : List (String × String) → String → String → List (String × String)
  | [], k, v => [(k, v)]
  | kv :: rest, k, v =>
    if kv.1 = k then (k, v) :: rest else kv :: mapSet rest k v

/-- Embedding of the Device.components getter: iterate the component
property names in declaration order, skip falsy properties (modeled as
none), and map each component's key to its property name. An entry is the
property name paired with the optional key of the component it holds. -/
def mkComponentsMap (props : List (String × Option String)) :
    List (String × String) :=
  props.foldl
    (fun m pk =>
      match pk.2 with
      | none => m
      | some key => mapSet m key pk.1) []

/-- Setting a key in the component table adds exactly that key to the key
set. -/
theorem mem_keys_mapSet (m : List (String × String)) (k v k2 : String) :
    k2 ∈ (mapSet m k v).map Prod.fst ↔ k2 = k ∨ k2 ∈ m.map Prod.fst := by
  induction m with
  | nil => simp [mapSet]
  | cons kv rest ih =>
    by_cases h : kv.1 = k
    · simp [mapSet, h]
    · simp [mapSet, h, ih]
      tauto

/-- The key set of the folded component table is the keys of the seed table
plus the keys of the processed entries. -/
theorem mem_keys_componentsFold (props : List (String × Option String)) :
    ∀ (m : List (String × String)) (k : String),
      (k ∈ ((props.foldl
          (fun m pk =>
            match pk.2 with
            | none => m
            | some key => mapSet m key pk.1) m).map Prod.fst)
        ↔ k ∈ m.map Prod.fst ∨ k ∈ props.filterMap Prod.snd) := by
  induction props with
  | nil => simp
  | cons pk props ih =>
    intro m k
    cases hpk : pk.2 with
    | none =>
      rw [List.foldl_cons]
      simp only [hpk]
      rw [ih m k]
      simp [List.filterMap_cons, hpk]
    | some key =>
      rw [List.foldl_cons]
      simp only [hpk]
      rw [ih (mapSet m key pk.1) k, mem_keys_mapSet m key pk.1 k]
      conv_rhs => rw [List.filterMap_cons]
      simp only [hpk, List.mem_cons]
      tauto

/-- C10: the matching key of a component is the explicitly supplied key or
else the name lower-cased; a component with an instance id appends a colon
and the id (the id defaulting to 0), so a Switch constructed without an
explicit id has key switch:0; and the device's component lookup table
contains exactly the keys of its non-falsy component properties. -/
theorem c10_component_keys :
    (∀ name k, componentKeyOf name (some k) = k)
    ∧ (∀ name, componentKeyOf name none = name.toLower)
    ∧ (∀ name key id, componentWithIdKeyOf name key id
        = componentKeyOf name key ++ ":" ++ toString id)
    ∧ componentWithIdKeyOf "Switch" none 0 = "switch:0"
    ∧ (∀ props k, k ∈ (mkComponentsMap props).map Prod.fst
        ↔ k ∈ props.filterMap Prod.snd) := by
  refine ⟨fun name k => rfl, fun name => rfl, fun name key id => rfl, ?_, ?_⟩
  · simp only [componentWithIdKeyOf, componentKeyOf, String.toLower,
      String.map_eq]
    decide
  · intro props k
    rw [mkComponentsMap, mem_keys_componentsFold props [] k]
    simp

/-! ## Device status-notification routing (src/devices/base.ts,
Device.statusUpdateHandler; src/rpc/websocket.ts,
WebSocketRpcHandler.handleMessage) -/

/-- A component as seen by the device: its key, its declared characteristic
set (in declaration order) and its characteristic state. -/
structure DevComponent where
  key : String
  characteristics : List String
  state : List (String × CVal)
deriving DecidableEq

/-- The sub-object of a status payload viewed as the record handed to
ComponentBase.update. -/
def fvalRecord (fs : List (String × FVal)) : List (String × CVal) :=
  fs.map fun kv => (kv.1, kv.2.toCVal)

/-- An array payload value viewed as the index-keyed record its enumerable
properties form. -/
def primsRecord (xs : List Prim) : List (String × CVal) :=
  xs.enum.map fun p => (toString p.1, CVal.prim p.2)

/-- Forwarding one payload value to a component's update. Only object-typed
values reach this point (the handler checks typeof). An object or array
value runs the update; a null value makes the first hasOwnProperty call of
the update loop throw a TypeError unless the component declares no
characteristics (then the loop body never runs). -/
def updateComponentRaw (comp : DevComponent) (v : CVal) :
    Except String (DevComponent × List (String × CVal)) :=
  match v with
  | .obj fs =>
    let r := componentUpdate comp.characteristics (fvalRecord fs) comp.state
    .ok ({ comp with state := r.state }, r.events)
  | .arr xs =>
    let r := componentUpdate comp.characteristics (primsRecord xs) comp.state
    .ok ({ comp with state := r.state }, r.events)
  | .null =>
    if comp.characteristics.isEmpty then .ok (comp, [])
    else .error "TypeError: null status payload"
  | _ => .error "unreachable: guarded by the typeof check"

/-- The component resulting from forwarding a payload value (unchanged when
the update throws, as the exception propagates before any assignment). -/
def componentAfterUpdate (comp : DevComponent) (v : CVal) : DevComponent :=
  match updateComponentRaw comp v with
  | .ok r => r.1
  | .error _ => comp

/-- The change events emitted while forwarding a payload value. -/
def componentEventsAfter (comp : DevComponent) (v : CVal) :
    List (String × CVal) :=
  match updateComponentRaw comp v with
  | .ok r => r.2
  | .error _ => []

/-- One iteration of the statusUpdateHandler loop for one top-level payload
entry: the ts key is skipped, non-object values are skipped, a key with no
matching component is ignored (the optional chaining on getComponent), and
otherwise the value is forwarded to the matching component's update. The
emitted change events are tagged with the component key. -/
def statusStep (comps : List DevComponent) (entry : String × CVal) :
    Except String (List DevComponent × List (String × String × CVal)) :=
  if entry.1 = "ts" then .ok (comps, [])
  else if jsTypeofObject entry.2 = false then .ok (comps, [])
  else
    match comps.find? fun comp => decide (comp.key = entry.1) with
    | none => .ok (comps, [])
    | some comp =>
      match updateComponentRaw comp entry.2 with
      | .error e => .error e
      | .ok r =>
        .ok (comps.map fun c0 => if c0.key = entry.1 then r.1 else c0,
             r.2.map fun e => (entry.1, e.1, e.2))

/-- Embedding of Device.statusUpdateHandler: iterate the top-level payload
entries in order, forwarding each matching sub-object; collect the change
events of all touched components in order. -/
def statusUpdateRun :
    List DevComponent → List (String × CVal) →
    Except String (List DevComponent × List (String × String × CVal))
  | comps, [] => .ok (comps, [])
  | comps, entry :: rest =>
    match statusStep comps entry with
    | .error e => .error e
    | .ok r1 =>
      match statusUpdateRun r1.1 rest with
      | .error e => .error e
      | .ok r2 => .ok (r2.1, r1.2 ++ r2.2)

/-- The component list after a status notification, none when the handler
throws. -/
def statusComponentsAfter (comps : List DevComponent)
    (payload : List (String × CVal)) : Option (List DevComponent) :=
  match statusUpdateRun comps payload with
  | .ok r => some r.1
  | .error _ => none

/-- The effect of one payload entry on one component: applied exactly when
the component key matches a non-ts, object-typed entry. -/
def stepRoute (entry : String × CVal) (comp : DevComponent) : DevComponent :=
  if comp.key = entry.1 ∧ entry.1 ≠ "ts" ∧ jsTypeofObject entry.2 = true
  then componentAfterUpdate comp entry.2
  else comp

/-- The effect of a whole status payload on one component: the first entry
matching its key is forwarded when it is a non-ts object-typed entry;
components matched by no payload key are untouched. -/
def routedComponent (payload : List (String × CVal)) (comp : DevComponent) :
    DevComponent :=
  match payload.find? fun e => decide (e.1 = comp.key) with
  | some e =>
    if e.1 ≠ "ts" ∧ jsTypeofObject e.2 = true
    then componentAfterUpdate comp e.2
    else comp
  | none => comp

/-- Model of WebSocketRpcHandler.handleMessage demultiplexing: a frame with
a truthy id is a response for the RPC client; NotifyStatus and
NotifyFullStatus frames carry status updates; NotifyEvent frames carry
events; everything else is ignored. -/
structure InboundMessage where
  id : Option Int
  method : Option String
  params : List (String × CVal)

/-- Destination of an inbound frame after demultiplexing. -/
inductive InboundDispatch where
  | toClient
  | statusUpdate (params : List (String × CVal))
  | eventNotification (params : List (String × CVal))
  | ignored
deriving DecidableEq

/-- Embedding of WebSocketRpcHandler.handleMessage (a zero id is falsy in
JavaScript and would fall through to the notification branches). -/
def handleMessage (d : InboundMessage) : InboundDispatch :=
  if (match d.id with
      | some i => decide (i ≠ 0)
      | none => false)
  then .toClient
  else if d.method = some "NotifyStatus" ∨ d.method = some "NotifyFullStatus"
  then .statusUpdate d.params
  else if d.method = some "NotifyEvent" then .eventNotification d.params
  else .ignored

/-- The characteristics declared by the Switch component, in declaration
order (src/components/switch.ts). -/
def switchCharacteristics : List String :=
  ["source", "output", "timer_started_at", "timer_duration", "apower",
   "voltage", "current", "pf", "aenergy", "temperature", "errors"]

/-- The initial characteristic values of a freshly constructed Switch. -/
def switchInitialState : List (String × CVal) :=
  [("source", .prim (.s "")), ("output", .prim (.b false)),
   ("timer_started_at", CVal.undef), ("timer_duration", CVal.undef),
   ("apower", CVal.undef), ("voltage", CVal.undef), ("current", CVal.undef),
   ("pf", CVal.undef), ("aenergy", CVal.undef),
   ("temperature", .obj [("tC", FVal.null), ("tF", FVal.null)]),
   ("errors", CVal.undef)]

/-- A Switch constructed without an explicit id: its key is switch:0. -/
def switchComponent0 : DevComponent :=
  ⟨"switch:0", switchCharacteristics, switchInitialState⟩

/-- The NotifyStatus params of the C8 scenario. -/
def scenarioPayload : List (String × CVal) :=
  [("ts", .prim (.n 100)),
   ("switch:0", .obj [("output", FVal.prim (.b true))])]

/-- A map whose function fixes every member is the identity. -/
theorem map_eq_self_of_comp (l : List DevComponent)
    (f : DevComponent → DevComponent) (h : ∀ c ∈ l, f c = c) : l.map f = l := by
  induction l with
  | nil => rfl
  | cons a l ih =>
    rw [List.map_cons, h a (List.mem_cons_self a l),
      ih fun c hc => h c (List.mem_cons_of_mem a hc)]

/-- Forwarding an object-typed, non-null payload value never throws, and
produces the after-update component and its events. -/
theorem updateComponentRaw_ok (comp : DevComponent) (v : CVal)
    (hobj : jsTypeofObject v = true) (hnn : v ≠ CVal.null) :
    updateComponentRaw comp v
      = .ok (componentAfterUpdate comp v, componentEventsAfter comp v) := by
  cases v <;>
    simp_all [updateComponentRaw, componentAfterUpdate, componentEventsAfter,
      jsTypeofObject]

/-- Forwarding a payload value never changes a component's key. -/
theorem componentAfterUpdate_key (comp : DevComponent) (v : CVal) :
    (componentAfterUpdate comp v).key = comp.key := by
  cases v with
  | null =>
    by_cases h : comp.characteristics.isEmpty <;>
      simp [componentAfterUpdate, updateComponentRaw, h]
  | obj fs => simp [componentAfterUpdate, updateComponentRaw]
  | arr xs => simp [componentAfterUpdate, updateComponentRaw]
  | prim p => simp [componentAfterUpdate, updateComponentRaw]
  | undef => simp [componentAfterUpdate, updateComponentRaw]

/-- Routing one payload entry never changes a component's key. -/
theorem stepRoute_key (entry : String × CVal) (comp : DevComponent) :
    (stepRoute entry comp).key = comp.key := by
  by_cases h : comp.key = entry.1 ∧ entry.1 ≠ "ts" ∧ jsTypeofObject entry.2 = true
  · simp [stepRoute, h, componentAfterUpdate_key]
  · simp [stepRoute, h]

/-- Routing one payload entry preserves the component key list. -/
theorem map_key_stepRoute (comps : List DevComponent) (entry : String × CVal) :
    (comps.map (stepRoute entry)).map DevComponent.key
      = comps.map DevComponent.key := by
  induction comps with
  | nil => rfl
  | cons a l ih => simp [stepRoute_key, ih]

/-- In a component list with duplicate-free keys, equal keys mean equal
components. -/
theorem comps_key_unique (comps : List DevComponent)
    (h : (comps.map DevComponent.key).Nodup) :
    ∀ c1 ∈ comps, ∀ c2 ∈ comps, c1.key = c2.key → c1 = c2 := by
  induction comps with
  | nil => intro c1 hc1; cases hc1
  | cons a l ih =>
    rw [List.map_cons] at h
    obtain ⟨ha, hl⟩ := List.nodup_cons.mp h
    intro c1 hc1 c2 hc2 he
    cases List.mem_cons.mp hc1 with
    | inl h1 =>
      cases List.mem_cons.mp hc2 with
      | inl h2 => rw [h1, h2]
      | inr h2 =>
        subst h1
        exact absurd (he ▸ List.mem_map_of_mem DevComponent.key h2) ha
    | inr h1 =>
      cases List.mem_cons.mp hc2 with
      | inl h2 =>
        subst h2
        exact absurd (he ▸ List.mem_map_of_mem DevComponent.key h1) ha
      | inr h2 => exact ih hl c1 h1 c2 h2 he

/-- A payload with no entry for a key finds nothing for it. -/
theorem find?_payload_none (rest : List (String × CVal)) (k : String)
    (h : k ∉ rest.map Prod.fst) :
    (rest.find? fun e => decide (e.1 = k)) = none := by
  rw [List.find?_eq_none]
  intro e he
  simp only [decide_eq_true_eq]
  intro hek
  exact h (hek ▸ List.mem_map_of_mem Prod.fst he)

/-- One handler iteration routes exactly the components whose key matches
the entry, and throws nothing when the payload value is not null. -/
theorem statusStep_components (comps : List DevComponent)
    (entry : String × CVal) (hck : (comps.map DevComponent.key).Nodup)
    (hnn : entry.2 ≠ CVal.null) :
    ∃ evs, statusStep comps entry = .ok (comps.map (stepRoute entry), evs) := by
  by_cases hts : entry.1 = "ts"
  · refine ⟨[], ?_⟩
    have hmap : comps.map (stepRoute entry) = comps := by
      apply map_eq_self_of_comp
      intro c hc
      have : ¬ (c.key = entry.1 ∧ entry.1 ≠ "ts" ∧ jsTypeofObject entry.2 = true) :=
        fun hh => hh.2.1 hts
      simp [stepRoute, this]
    simp [statusStep, hts, hmap]
  · by_cases hobj : jsTypeofObject entry.2 = true
    · cases hfind : comps.find? fun comp => decide (comp.key = entry.1) with
      | none =>
        refine ⟨[], ?_⟩
        have hnone : ∀ c0 ∈ comps, ¬ (c0.key = entry.1) := by
          intro c0 hc0 he
          have := List.find?_eq_none.mp hfind c0 hc0
          simp [he] at this
        have hmap : comps.map (stepRoute entry) = comps := by
          apply map_eq_self_of_comp
          intro c hc
          have : ¬ (c.key = entry.1 ∧ entry.1 ≠ "ts" ∧ jsTypeofObject entry.2 = true) :=
            fun hh => hnone c hc hh.1
          simp [stepRoute, this]
        simp [statusStep, hts, hobj, hfind, hmap]
      | some comp =>
        have hkey : comp.key = entry.1 := by
          have := List.find?_some hfind
          simpa using this
        have hmem : comp ∈ comps := List.mem_of_find?_eq_some hfind
        have hraw := updateComponentRaw_ok comp entry.2 hobj hnn
        refine ⟨(componentEventsAfter comp entry.2).map
          fun e => (entry.1, e.1, e.2), ?_⟩
        have hmap : (comps.map fun c0 =>
            if c0.key = entry.1 then componentAfterUpdate comp entry.2 else c0)
            = comps.map (stepRoute entry) := by
          apply List.map_congr_left
          intro c0 hc0
          by_cases hc0k : c0.key = entry.1
          · have hc0comp : c0 = comp :=
              comps_key_unique comps hck c0 hc0 comp hmem (hc0k.trans hkey.symm)
            subst hc0comp
            simp [stepRoute, hc0k, hts, hobj]
          · have : ¬ (c0.key = entry.1 ∧ entry.1 ≠ "ts" ∧
                jsTypeofObject entry.2 = true) := fun hh => hc0k hh.1
            simp [stepRoute, hc0k, this]
        simp [statusStep, hts, hobj, hfind, hraw, hmap]
    · refine ⟨[], ?_⟩
      have hmap : comps.map (stepRoute entry) = comps := by
        apply map_eq_self_of_comp
        intro c hc
        have : ¬ (c.key = entry.1 ∧ entry.1 ≠ "ts" ∧ jsTypeofObject entry.2 = true) :=
          fun hh => hobj hh.2.2
        simp [stepRoute, this]
      simp only [Bool.not_eq_true] at hobj
      simp [statusStep, hts, hobj, hmap]

/-- Routing a payload starting with an entry whose key occurs nowhere later
factors into routing that entry and then the rest. -/
theorem routedComponent_cons (entry : String × CVal)
    (rest : List (String × CVal)) (c0 : DevComponent)
    (hnotin : entry.1 ∉ rest.map Prod.fst) :
    routedComponent (entry :: rest) c0
      = routedComponent rest (stepRoute entry c0) := by
  by_cases hkey : c0.key = entry.1
  · have hfind : ((entry :: rest).find? fun e => decide (e.1 = c0.key))
        = some entry :=
      List.find?_cons_of_pos _ (by simp [hkey])
    by_cases hcond : entry.1 ≠ "ts" ∧ jsTypeofObject entry.2 = true
    · have hsr : stepRoute entry c0 = componentAfterUpdate c0 entry.2 := by
        simp only [stepRoute, if_pos (And.intro hkey hcond)]
      have hkey2 : (componentAfterUpdate c0 entry.2).key = entry.1 :=
        (componentAfterUpdate_key c0 entry.2).trans hkey
      have hfind2 : (rest.find? fun e =>
          decide (e.1 = (componentAfterUpdate c0 entry.2).key)) = none := by
        rw [hkey2]
        exact find?_payload_none rest entry.1 hnotin
      simp only [routedComponent, hfind, if_pos hcond, hsr, hfind2]
    · have hsr : stepRoute entry c0 = c0 := by
        have : ¬ (c0.key = entry.1 ∧ entry.1 ≠ "ts" ∧
            jsTypeofObject entry.2 = true) := fun hh => hcond hh.2
        simp only [stepRoute, if_neg this]
      have hfind2 : (rest.find? fun e => decide (e.1 = c0.key)) = none := by
        rw [hkey]
        exact find?_payload_none rest entry.1 hnotin
      simp only [routedComponent, hfind, if_neg hcond, hsr, hfind2]
  · have hfind : ((entry :: rest).find? fun e => decide (e.1 = c0.key))
        = rest.find? fun e => decide (e.1 = c0.key) :=
      List.find?_cons_of_neg _ (by simp; intro hh; exact hkey hh.symm)
    have hsr : stepRoute entry c0 = c0 := by
      have : ¬ (c0.key = entry.1 ∧ entry.1 ≠ "ts" ∧
          jsTypeofObject entry.2 = true) := fun hh => hkey hh.1
      simp only [stepRoute, if_neg this]
    simp only [routedComponent, hfind, hsr]

/-- The whole status handler run: with duplicate-free payload keys and
component keys and no null payload values, it throws nothing and every
component ends as routed by the first entry matching its key. -/
theorem statusUpdateRun_components (payload : List (String × CVal)) :
    ∀ comps : List DevComponent,
      (payload.map Prod.fst).Nodup →
      (comps.map DevComponent.key).Nodup →
      (∀ e ∈ payload, e.2 ≠ CVal.null) →
      ∃ evs, statusUpdateRun comps payload
        = .ok (comps.map (routedComponent payload), evs) := by
  induction payload with
  | nil =>
    intro comps _ _ _
    refine ⟨[], ?_⟩
    have hmap : comps.map (routedComponent []) = comps :=
      map_eq_self_of_comp comps _ fun c _ => rfl
    simp [statusUpdateRun, hmap]
  | cons entry rest ih =>
    intro comps hpk hck hnn
    rw [List.map_cons] at hpk
    obtain ⟨hnotin, hpk2⟩ := List.nodup_cons.mp hpk
    obtain ⟨evs1, hstep⟩ := statusStep_components comps entry hck
      (hnn entry (List.mem_cons_self entry rest))
    have hck1 : ((comps.map (stepRoute entry)).map DevComponent.key).Nodup := by
      rw [map_key_stepRoute]
      exact hck
    obtain ⟨evs2, hrun⟩ := ih (comps.map (stepRoute entry)) hpk2 hck1
      fun e he => hnn e (List.mem_cons_of_mem entry he)
    refine ⟨evs1 ++ evs2, ?_⟩
    have hcompose : (comps.map (stepRoute entry)).map (routedComponent rest)
        = comps.map (routedComponent (entry :: rest)) := by
      rw [List.map_map]
      apply List.map_congr_left
      intro c0 hc0
      exact (routedComponent_cons entry rest c0 hnotin).symm
    simp only [statusUpdateRun, hstep, hrun, hcompose]

/-- C8: for every status notification whose payload has duplicate-free keys
and no null values, every top-level key other than ts whose value is
object-typed and matches a known component key is forwarded to that
component's update, and every other key leaves every component untouched
(per-component: the routedComponent of the payload); moreover, in the
concrete scenario, a NotifyStatus frame with ts 100 and switch:0 output
true is dispatched as a status update, sets the switch component's output
characteristic to true, and fires exactly one change event with key output
and value true, tagged with the switch:0 component key. -/
theorem c8_status_notification_routing
    (comps : List DevComponent) (payload : List (String × CVal))
    (hpk : (payload.map Prod.fst).Nodup)
    (hck : (comps.map DevComponent.key).Nodup)
    (hnn : ∀ e ∈ payload, e.2 ≠ CVal.null) :
    statusComponentsAfter comps payload
        = some (comps.map (routedComponent payload))
      ∧ handleMessage ⟨none, some "NotifyStatus", scenarioPayload⟩
          = .statusUpdate scenarioPayload
      ∧ statusUpdateRun [switchComponent0] scenarioPayload
          = .ok ([⟨"switch:0", switchCharacteristics,
                  setProp switchInitialState "output" (CVal.prim (.b true))⟩],
                 [("switch:0", "output", CVal.prim (.b true))])
      ∧ getProp (setProp switchInitialState "output" (CVal.prim (.b true)))
          "output" = CVal.prim (.b true) := by
  obtain ⟨evs, h⟩ := statusUpdateRun_components payload comps hpk hck hnn
  refine ⟨?_, rfl, by rfl, by decide⟩
  simp [statusComponentsAfter, h]

/-- Witness for c8_status_notification_routing at the concrete scenario
payload and a single switch component. -/
theorem c8_status_notification_witness :
    statusComponentsAfter [switchComponent0] scenarioPayload
        = some ([switchComponent0].map (routedComponent scenarioPayload))
      ∧ handleMessage ⟨none, some "NotifyStatus", scenarioPayload⟩
          = .statusUpdate scenarioPayload
      ∧ statusUpdateRun [switchComponent0] scenarioPayload
          = .ok ([⟨"switch:0", switchCharacteristics,
                  setProp switchInitialState "output" (CVal.prim (.b true))⟩],
                 [("switch:0", "output", CVal.prim (.b true))])
      ∧ getProp (setProp switchInitialState "output" (CVal.prim (.b true)))
          "output" = CVal.prim (.b true) :=
  c8_status_notification_routing [switchComponent0] scenarioPayload
    (by decide) (by decide) (by decide)
